import Mathlib

/-!
Verification development for the notig note-taking application's local
synchronization engine. The definitions below are shallow embeddings of
src/public/note-utils.js, src/public/git-api.js and the sync operations of
the main app module; the theorems settle the specification claims about
them. Strings manipulated character-wise are modelled as List Char;
awaited git/filesystem primitives become explicit inputs recording their
outcomes.
-/

namespace Notig

/-! ### DocumentCodec: model of src/public/note-utils.js -/

/-- Prepend a character to the first line of a line list. -/
def consLine (c : Char) : List (List Char) → List (List Char)
  | [] => [[c]]
  | l :: ls => (c :: l) :: ls

/-- Split on LF only. -/
def splitLF : List Char → List (List Char)
  | [] => [[]]
  | '\n' :: rest => [] :: splitLF rest
  | c :: rest => consLine c (splitLF rest)

/-- Split following the JS regex /\r?\n/ used by parseNoteBody and the
title fallback. -/
def splitLines : List Char → List (List Char)
  | [] => [[]]
  | '\r' :: '\n' :: rest => [] :: splitLines rest
  | '\n' :: rest => [] :: splitLines rest
  | c :: rest => consLine c (splitLines rest)

/-- Join lines with LF, as Array.prototype.join('\n') does. -/
def joinLF : List (List Char) → List Char
  | [] => []
  | [l] => l
  | l :: ls => l ++ '\n' :: joinLF ls

/-- ASCII portion of the whitespace class matched by the JS regex \s and by
String.prototype.trim. -/
def isWS (c : Char) : Bool :=
  c = ' ' || c = '\t' || c = '\n' || c = '\r' || c = '\x0b' || c = '\x0c'

/-- String.prototype.trim on a character list. -/
def trimChars (s : List Char) : List Char :=
  ((s.dropWhile isWS).reverse.dropWhile isWS).reverse

/-- A front-matter field value: scalar string or list of strings. -/
inductive FMValue where
  | scalar (s : List Char)
  | list (entries : List (List Char))
deriving DecidableEq, Repr

/-- JS object assignment data[key] = v: overwrite in place or append. -/
def setField (k : List Char) (v : FMValue) :
    List (List Char × FMValue) → List (List Char × FMValue)
  | [] => [(k, v)]
  | (k', v') :: rest =>
    if k' = k then (k, v) :: rest else (k', v') :: setField k v rest

/-- JS data[listKey].push(entry) on the open list field. -/
def pushEntry (k : List Char) (e : List Char) :
    List (List Char × FMValue) → List (List Char × FMValue)
  | [] => []
  | (k', v') :: rest =>
    if k' = k then
      (k', match v' with
        | FMValue.list es => FMValue.list (es ++ [e])
        | s => s) :: rest
    else (k', v') :: pushEntry k e rest

/-- The JS regex match /^\s*-\s+(.*)$/ returning the capture. -/
def listMatch (line : List Char) : Option (List Char) :=
  match line.dropWhile isWS with
  | '-' :: c :: rest => if isWS c then some ((c :: rest).dropWhile isWS) else none
  | _ => none

/-- Characters of the key class [A-Za-z0-9_-]. -/
def isKeyChar (c : Char) : Bool :=
  c.isAlpha || c.isDigit || c = '_' || c = '-'

/-- The JS regex match /^([A-Za-z0-9_-]+):\s*(.*)$/ returning both
captures. -/
def kvMatch (line : List Char) : Option (List Char × List Char) :=
  let key := line.takeWhile isKeyChar
  match line.dropWhile isKeyChar with
  | ':' :: after => if key = [] then none else some (key, after.dropWhile isWS)
  | _ => none

/-- The JS replace(/\\"/g, '"'). -/
def unescapeQuotes : List Char → List Char
  | [] => []
  | '\\' :: '"' :: rest => '"' :: unescapeQuotes rest
  | c :: rest => c :: unescapeQuotes rest

/-- Model of stripYamlDoubleQuotes. -/
def stripYamlDoubleQuotes (v : List Char) : List Char :=
  if 2 ≤ v.length ∧ v.head? = some '"' ∧ v.getLast? = some '"' then
    unescapeQuotes ((v.drop 1).dropLast)
  else v

/-- String.prototype.split(',') on a character list. -/
def splitCommas : List Char → List (List Char)
  | [] => [[]]
  | ',' :: rest => [] :: splitCommas rest
  | c :: rest => consLine c (splitCommas rest)

/-- State threaded through parseFrontMatter's forEach: the data record and
the currently open list key. -/
structure FMState where
  data : List (List Char × FMValue)
  listKey : Option (List Char)

def titleKey : List Char := "title".data

def titleKeyU : List Char := "Title".data

/-- One iteration of parseFrontMatter's forEach body. -/
def fmStep (st : FMState) (line : List Char) : FMState :=
  if trimChars line = [] then st
  else
    match listMatch line, st.listKey with
    | some entryRaw, some k =>
      let entry := trimChars entryRaw
      if entry = [] then st else { st with data := pushEntry k entry st.data }
    | _, _ =>
      match kvMatch line with
      | none => { st with listKey := none }
      | some (key, rawValue) =>
        let value := trimChars rawValue
        if value = [] then
          { data := setField key (FMValue.list []) st.data, listKey := some key }
        else if value.head? = some '[' ∧ value.getLast? = some ']' then
          { data := setField key
              (FMValue.list (((splitCommas ((value.drop 1).dropLast)).map trimChars).filter
                (fun e => e ≠ [])))
              st.data,
            listKey := none }
        else
          let nv := if key = titleKey ∨ key = titleKeyU then
            stripYamlDoubleQuotes value else value
          { data := setField key (FMValue.scalar nv) st.data, listKey := none }

/-- Model of parseFrontMatter. -/
def parseFrontMatter (lines : List (List Char)) : List (List Char × FMValue) :=
  (lines.foldl fmStep ⟨[], none⟩).data

/-- The metadata block delimiter line. -/
def fmMarker : List Char := ['-', '-', '-']

/-- Result of parseNoteBody. -/
structure ParsedNote where
  frontMatter : List (List Char × FMValue)
  frontMatterRaw : Option (List Char)
  content : List Char
deriving DecidableEq, Repr

/-- Model of parseNoteBody. -/
def parseNoteBody (body : List Char) : ParsedNote :=
  match splitLines body with
  | [] => ⟨[], none, body⟩
  | l0 :: rest =>
    if l0 = fmMarker then
      match rest.findIdx? (fun l => l = fmMarker) with
      | some j =>
        ⟨parseFrontMatter (rest.take j),
         some (joinLF (l0 :: rest.take (j + 1))),
         joinLF (rest.drop (j + 1))⟩
      | none => ⟨[], none, body⟩
    else ⟨[], none, body⟩

/-- Re-serialization of a parse result: the raw metadata block, a line
break, then the content. -/
def composeBody (raw content : List Char) : List Char := raw ++ '\n' :: content

/-- Well-formedness per the round-trip claim: the first line is exactly the
delimiter marker and a terminating marker line exists. -/
def hasWellFormedFM (body : List Char) : Bool :=
  match splitLines body with
  | [] => false
  | l0 :: rest => l0 == fmMarker && (rest.findIdx? (fun l => l = fmMarker)).isSome

/-- Whether the terminating marker line is followed by at least one further
line (equivalently, by a line break). -/
def fmTerminatorFollowed (body : List Char) : Bool :=
  match splitLines body with
  | [] => false
  | _ :: rest =>
    match rest.findIdx? (fun l => l = fmMarker) with
    | some j => j + 1 < rest.length
    | none => false

/-- Whether a line is blank under String.prototype.trim. -/
def isBlank (l : List Char) : Bool := trimChars l = []

/-- The Title-then-content tail of getNoteTitle. -/
def getNoteTitleUpper (p : ParsedNote) : List Char :=
  match p.frontMatter.lookup titleKeyU with
  | some (FMValue.scalar s) =>
    if trimChars s ≠ [] then trimChars s else
      match (splitLines p.content).find? (fun l => !isBlank l) with
      | some l => trimChars l
      | none => "Untitled".data
  | _ =>
    match (splitLines p.content).find? (fun l => !isBlank l) with
    | some l => trimChars l
    | none => "Untitled".data

/-- Model of getNoteTitle. -/
def getNoteTitle (p : ParsedNote) : List Char :=
  match p.frontMatter.lookup titleKey with
  | some (FMValue.scalar s) =>
    if trimChars s ≠ [] then trimChars s else getNoteTitleUpper p
  | _ => getNoteTitleUpper p

/-- A non-blank explicit scalar title field under the given key, trimmed. -/
def explicitNonBlankTitle (fm : List (List Char × FMValue)) (k : List Char) :
    Option (List Char) :=
  match fm.lookup k with
  | some (FMValue.scalar s) => if isBlank s then none else some (trimChars s)
  | _ => none

/-- Title resolution written from the spec sentence: a non-blank explicit
title field (either case variant) first, else the first non-blank line of
the content (trimmed), else the constant Untitled. -/
def titleOfSpec (p : ParsedNote) : List Char :=
  match ([titleKey, titleKeyU].filterMap (explicitNonBlankTitle p.frontMatter)).head? with
  | some t => t
  | none =>
    match ((splitLines p.content).filter (fun l => !isBlank l)).head? with
    | some l => trimChars l
    | none => "Untitled".data

/-! ### ConfigGuard: model of ensureConfig in src/public/git-api.js -/

def FETCH_REFSPEC : String := "+refs/heads/*:refs/remotes/origin/*"

def authorName : String := "notig user"

def authorEmail : String := "user@example.com"

/-- JS Boolean() on a safeGetConfig result: none (read failure or missing
key) and the empty string are falsy. -/
def configTruthy : Option String → Bool
  | none => false
  | some s => !(s == "")

/-- Model of ensureConfig: the four Option arguments are the safeGetConfig
reads of remote.origin.url, remote.origin.fetch, user.name and user.email
(none when the read failed or the key is unset); `url` is the expected
remote URL constant. -/
def ensureConfig (url : String) (remoteUrl fetchRefspec existingName existingEmail :
    Option String) : Bool :=
  remoteUrl == some url && fetchRefspec == some FETCH_REFSPEC &&
    configTruthy existingName && configTruthy existingEmail

/-! ### HistoryIndex: model of logFileChanges in src/public/git-api.js -/

structure LogEntry where
  oid : String
  parents : List String
deriving DecidableEq, Repr

/-- The content-hash of a path at an optional revision, null (none) when
there is no revision or the blob is missing. -/
def contentHashAt (blobAt : String → String → Option String)
    (oid : Option String) (filepath : String) : Option String :=
  match oid with
  | some o => blobAt o filepath
  | none => none

/-- Model of logFileChanges: `commits` is the raw path-filtered log,
`blobAt oid filepath` the blob oid of the path at a commit (none models the
NotFoundError/ENOENT case that getBlobOidAtCommit maps to null). -/
def logFileChanges (commits : List LogEntry)
    (blobAt : String → String → Option String) (filepath : String) : List LogEntry :=
  commits.filter (fun e =>
    let parentOid := e.parents.head?
    let currentBlob := blobAt e.oid filepath
    let parentBlob := contentHashAt blobAt parentOid filepath
    decide (currentBlob ≠ parentBlob))

/-! ### Conflict-marker commit: model of commitMergeConflictMarkers -/

/-- One row of the isomorphic-git status matrix: [path, head, workdir,
stage]. -/
structure StatusEntry where
  path : String
  head : Nat
  workdir : Nat
  stage : Nat
deriving DecidableEq, Repr

/-- Parent selection passed to git.commit: an explicit parent list, or none
given (the library then uses the current HEAD resolution). -/
inductive ParentSpec where
  | explicitPar (ps : List String)
  | headDefault
deriving DecidableEq, Repr

structure CommitRec where
  message : String
  parents : ParentSpec
deriving DecidableEq, Repr

/-- Observable effects of commitMergeConflictMarkers: its boolean return,
the add calls (path with the on-disk content staged) and the commit
created, if any. -/
structure MarkerCommitResult where
  committed : Bool
  staged : List (String × Option String)
  commit : Option CommitRec
deriving DecidableEq, Repr

/-- The stage-status-3 paths of a status matrix, in order. -/
def conflictedOf (matrix : List StatusEntry) : List String :=
  (matrix.filter (fun e => e.stage == 3)).map (fun e => e.path)

/-- Model of commitMergeConflictMarkers: `workdir p` is the on-disk content
staged by add; localOid/remoteOid are the resolved refs/heads/main and
refs/remotes/origin/main (none when resolveRef rejected). -/
def commitMergeConflictMarkers (matrix : List StatusEntry)
    (workdir : String → Option String)
    (localOid remoteOid : Option String) : MarkerCommitResult :=
  let conflicted := conflictedOf matrix
  if conflicted = [] then ⟨false, [], none⟩
  else
    let staged := conflicted.map (fun p => (p, workdir p))
    let c :=
      match localOid, remoteOid with
      | some l, some r =>
        if l ≠ r then CommitRec.mk "merge conflict" (ParentSpec.explicitPar [l, r])
        else CommitRec.mk "merge conflict" (ParentSpec.explicitPar [l])
      | some l, none => CommitRec.mk "merge conflict" (ParentSpec.explicitPar [l])
      | none, _ => CommitRec.mk "merge conflict" ParentSpec.headDefault
    ⟨true, staged, some c⟩

/-! ### Note markers: model of buildNoteMarkers / getChangedNotePaths -/

inductive EType where
  | tree
  | blob
deriving DecidableEq, Repr

structure TreeEntry where
  etype : EType
  oid : String
deriving DecidableEq, Repr

/-- A commit's file tree as a flat path-to-entry table (the paths git.walk
visits, sub-trees included). -/
abbrev TreeTable := List (String × TreeEntry)

/-- Char-by-char string prefix test (String.startsWith does not reduce in
the kernel). -/
def leadsWith : List Char → List Char → Bool
  | [], _ => true
  | _ :: _, [] => false
  | a :: as, b :: bs => a == b && leadsWith as bs

def strLeads (pre s : String) : Bool := leadsWith pre.data s.data

/-- The union of paths git.walk visits over the two trees. -/
def walkPaths (lt rt : TreeTable) : List String :=
  (lt.map Prod.fst ++ rt.map Prod.fst).dedup

/-- Body of the git.walk map callback of getChangedNotePaths after the
path checks: sub-tree entries are skipped, an entry present on one side
only or whose blob oid differs counts as changed. -/
def walkEntryChanged (le re : Option TreeEntry) : Bool :=
  match le, re with
  | some l, some r =>
    if l.etype = EType.tree ∨ r.etype = EType.tree then false
    else decide (l.oid ≠ r.oid)
  | some l, none => decide (l.etype ≠ EType.tree)
  | none, some r => decide (r.etype ≠ EType.tree)
  | none, none => false

/-- Model of getChangedNotePaths: treeOf gives each commit's tree table. -/
def getChangedNotePaths (localOid remoteOid : Option String)
    (treeOf : String → TreeTable) : List String :=
  match localOid, remoteOid with
  | some l, some r =>
    if l = r then []
    else (walkPaths (treeOf l) (treeOf r)).filter (fun p =>
      !(p == ".") && strLeads "notes/" p &&
        walkEntryChanged ((treeOf l).lookup p) ((treeOf r).lookup p))
  | _, _ => []

structure Note where
  id : String
  body : String
deriving DecidableEq, Repr

structure NoteMarker where
  diffFromOrigin : Bool
  locallyCommitted : Bool
deriving DecidableEq, Repr

/-- The storage path derived from a note id. -/
def getNoteFilePath (id : String) : String := "notes/" ++ id

/-- Model of buildNoteMarkers. -/
def buildNoteMarkers (sourceNotes : List Note) (localOid remoteOid : Option String)
    (treeOf : String → TreeTable) : List (String × NoteMarker) :=
  let changedPaths := getChangedNotePaths localOid remoteOid treeOf
  sourceNotes.filterMap (fun note =>
    let locallyCommitted := changedPaths.contains (getNoteFilePath note.id)
    let diffFromOrigin := locallyCommitted
    if diffFromOrigin || locallyCommitted then
      some (note.id, NoteMarker.mk diffFromOrigin locallyCommitted)
    else none)

/-- The changed-path condition as the spec words it: a leaf (non-sub-tree)
entry under the notes prefix whose content-hash differs between the two
tips or which is present on only one side. -/
def changedLeafSpec (treeOf : String → TreeTable) (l r p : String) : Prop :=
  strLeads "notes/" p = true ∧ p ≠ "." ∧
  ((∃ el er, (treeOf l).lookup p = some el ∧ (treeOf r).lookup p = some er ∧
      el.etype = EType.blob ∧ er.etype = EType.blob ∧ el.oid ≠ er.oid) ∨
   (∃ el, (treeOf l).lookup p = some el ∧ (treeOf r).lookup p = none ∧
      el.etype = EType.blob) ∨
   (∃ er, (treeOf l).lookup p = none ∧ (treeOf r).lookup p = some er ∧
      er.etype = EType.blob))

/-! ### SyncEngine: models of pullChanges, pushChanges, deleteCurrentNote.
Each awaited git primitive's outcome is an input field of an environment
structure, mirroring the sequential await points of the source. -/

inductive MergeResult where
  | ok
  | conflict
  | unmergedPaths
  | otherError
deriving DecidableEq, Repr

inductive PushPrimResult where
  | ok
  | rejected
  | otherError
deriving DecidableEq, Repr

/-- Model of isUpToDateWithRemote: fetch, then resolve both tips; a fetch
failure or an unresolvable tip yields false. -/
def isUpToDateWithRemote (fetchThrows : Bool) (localOid remoteOid : Option String) :
    Bool :=
  if fetchThrows then false
  else match localOid, remoteOid with
    | some l, some r => l == r
    | _, _ => false

structure PushEnv where
  hasUnsavedChanges : Bool
  currentIdPresent : Bool
  isViewingHistorySnapshot : Bool
  saveAndCommitThrows : Bool
  remoteBefore : Option String
  fetchThrows : Bool
  fetchedRemoteOid : Option String
  mergeResult : MergeResult
  matrix : List StatusEntry
  markersWorkdir : String → Option String
  markerLocalOid : Option String
  markerRemoteOid : Option String
  markerCommitThrows : Bool
  pushResult : PushPrimResult
  postLocalOid : Option String
  writeRefThrows : Bool
  refetchThrows : Bool
  refetchLocalOid : Option String
  refetchRemoteOid : Option String

/-- Final state reported by pushChanges, plus the value of the
remote-tracking ref when the operation returns. -/
structure PushOutcome where
  statusMsg : String
  conflictCommitted : Bool
  remoteRefAfter : Option String
deriving DecidableEq, Repr

/-- The push/rejection tail of pushChanges, entered after fetch+merge (and a
possible conflict-marker commit) succeeded. On success the code force-writes
refs/remotes/origin/main to the new local tip; on PushRejectedError it
re-checks tip equality before reporting failure. -/
def pushPhase (env : PushEnv) (conflictCommitted : Bool) : PushOutcome :=
  match env.pushResult with
  | PushPrimResult.ok =>
    let written := env.postLocalOid.isSome && !env.writeRefThrows
    ⟨if conflictCommitted then "pushed (conflict committed)" else "pushed",
     conflictCommitted,
     if written then env.postLocalOid else env.fetchedRemoteOid⟩
  | PushPrimResult.rejected =>
    let after := if env.refetchThrows then env.fetchedRemoteOid else env.refetchRemoteOid
    if isUpToDateWithRemote env.refetchThrows env.refetchLocalOid env.refetchRemoteOid then
      ⟨if conflictCommitted then "pushed (conflict committed)" else "pushed",
       conflictCommitted, after⟩
    else ⟨"push failed", conflictCommitted, after⟩
  | PushPrimResult.otherError => ⟨"push failed", conflictCommitted, env.fetchedRemoteOid⟩

/-- Model of pushChanges. -/
def pushChanges (env : PushEnv) : PushOutcome :=
  if env.hasUnsavedChanges && env.currentIdPresent && !env.isViewingHistorySnapshot &&
      env.saveAndCommitThrows then
    ⟨"commit failed", false, env.remoteBefore⟩
  else if env.fetchThrows then ⟨"push failed", false, env.remoteBefore⟩
  else match env.mergeResult with
  | MergeResult.ok => pushPhase env false
  | MergeResult.conflict | MergeResult.unmergedPaths =>
    if env.markerCommitThrows then
      ⟨"merge conflict commit failed", false, env.fetchedRemoteOid⟩
    else
      let res := commitMergeConflictMarkers env.matrix env.markersWorkdir
        env.markerLocalOid env.markerRemoteOid
      if res.committed then pushPhase env true
      else ⟨"merge conflict (markers created)", false, env.fetchedRemoteOid⟩
  | MergeResult.otherError => ⟨"push failed", false, env.fetchedRemoteOid⟩

/-- The control-flow condition under which pushChanges reaches the push
primitive. -/
def reachesPushPhase (env : PushEnv) : Prop :=
  (env.hasUnsavedChanges && env.currentIdPresent && !env.isViewingHistorySnapshot &&
    env.saveAndCommitThrows) = false ∧
  env.fetchThrows = false ∧
  (env.mergeResult = MergeResult.ok ∨
   ((env.mergeResult = MergeResult.conflict ∨ env.mergeResult = MergeResult.unmergedPaths) ∧
    env.markerCommitThrows = false ∧
    (commitMergeConflictMarkers env.matrix env.markersWorkdir
      env.markerLocalOid env.markerRemoteOid).committed = true))

structure PullEnv where
  fetchThrows : Bool
  mergeResult : MergeResult
  hasUnsavedChanges : Bool
  matrix : List StatusEntry
  markersWorkdir : String → Option String
  markerLocalOid : Option String
  markerRemoteOid : Option String
  markerCommitThrows : Bool
  resetThrows : Bool

/-- Final state reported by pullChanges: the status string, whether a forced
checkout materialized the working tree, whether resetToRemote completed,
whether conflict markers were committed, and whether conflict markers are
sitting in the working tree when the operation returns. -/
structure PullOutcome where
  statusMsg : String
  forcedCheckout : Bool
  resetRun : Bool
  markersCommitted : Bool
  conflictMarkersInWorkdir : Bool
deriving DecidableEq, Repr

/-- The conflict-marker branch of pullChanges' MergeConflictError handler:
the failed merge (abortOnConflict: false) has already written conflict
markers into the working tree, and no step of this branch clears them. -/
def pullConflictMarkerPath (env : PullEnv) : PullOutcome :=
  if env.markerCommitThrows then ⟨"merge conflict commit failed", false, false, false, true⟩
  else
    let res := commitMergeConflictMarkers env.matrix env.markersWorkdir
      env.markerLocalOid env.markerRemoteOid
    if res.committed then ⟨"merge conflict committed", false, false, true, true⟩
    else ⟨"merge conflict (markers created)", false, false, false, true⟩

/-- Model of pullChanges. forcedCheckout records whether a forced checkout
materialized the working tree (refreshWorkingTree, or the checkout inside
resetToRemote). -/
def pullChanges (env : PullEnv) : PullOutcome :=
  if env.fetchThrows then ⟨"pull failed", false, false, false, false⟩
  else match env.mergeResult with
  | MergeResult.ok =>
    let forced := !env.hasUnsavedChanges
    if env.markerCommitThrows then ⟨"pull failed", forced, false, false, false⟩
    else
      let res := commitMergeConflictMarkers env.matrix env.markersWorkdir
        env.markerLocalOid env.markerRemoteOid
      if res.committed then ⟨"merge conflict committed", forced, false, true, false⟩
      else ⟨"pulled", forced, false, false, false⟩
  | MergeResult.conflict =>
    if !env.hasUnsavedChanges then
      if !env.resetThrows then ⟨"pulled (remote)", true, true, false, false⟩
      else pullConflictMarkerPath env
    else pullConflictMarkerPath env
  | MergeResult.unmergedPaths => ⟨"pull failed", false, false, false, false⟩
  | MergeResult.otherError => ⟨"pull failed", false, false, false, false⟩

/-! ### WorkingSet deletion: model of deleteCurrentNote -/

/-- Observable effects of deleteCurrentNote. -/
structure DeleteOutcome where
  fileRemoved : Bool
  commitCreated : Bool
  statusMsg : String
  notesAfter : List Note
deriving DecidableEq, Repr

/-- wasTracked as computed by deleteCurrentNote from the pre-delete
single-path status string. -/
def wasTracked (prevStatus : String) : Bool :=
  !(prevStatus == "untracked") && !(prevStatus == "absent")

/-- Model of deleteCurrentNote after its currentId guard: prevStatus is the
status({filepath}) result, fileExists whether the unlink found the file
(absence is tolerated). -/
def deleteCurrentNote (prevStatus : String) (fileExists : Bool)
    (notes : List Note) (currentId : String) : DeleteOutcome :=
  let tracked := wasTracked prevStatus
  { fileRemoved := fileExists
    commitCreated := tracked
    statusMsg := if tracked then "deleted" else "removed locally"
    notesAfter := notes.eraseP (fun n => n.id == currentId) }

/-- The status string isomorphic-git reports for a file present in the
working directory but absent from both HEAD and the index (a newly created,
never-committed note); the library's status vocabulary has no "untracked"
value. -/
def untrackedStatus : String := "*added"

/-! ### Ref-effect model: the two refs the app reasons about (C9) -/

structure RefState where
  localRef : Option String
  remoteRef : Option String
deriving DecidableEq, Repr

/-- Storage-engine model: git.merge fast-forwards or commits on the ours
branch (refs/heads/main); it does not touch the remote-tracking ref. -/
def mergeRefEffect (st : RefState) (mergedOid : String) : RefState :=
  ⟨some mergedOid, st.remoteRef⟩

/-- Storage-engine model: git.commit advances the current branch only. -/
def commitRefEffect (st : RefState) (newOid : String) : RefState :=
  ⟨some newOid, st.remoteRef⟩

/-- Ref effect of deleteCurrentNote: a deletion commit advances main when
the note was tracked; no other ref is touched. -/
def deleteRefEffect (st : RefState) (prevStatus : String) (newOid : String) : RefState :=
  if wasTracked prevStatus then commitRefEffect st newOid else st

/-- Ref effect of resetToRemote: force-write refs/heads/main to the resolved
remote-tracking tip (resolveRef rejects when it is absent), then a forced
checkout, which writes no ref. -/
def resetToRemoteRefEffect (st : RefState) : Except Unit RefState :=
  match st.remoteRef with
  | some r => Except.ok ⟨some r, st.remoteRef⟩
  | none => Except.error ()

/-! ### Concrete inputs used by counterexamples and witnesses -/

/-- Body whose metadata block is well formed but whose terminating marker is
the last line. -/
def c4Body : List Char := "---\n---".data

def c4WitnessBody : List Char := "---\ntitle: x\n---\nhello".data

def c8Url : String := "https://example.test/git/notig.git"

def c6RootLog : List LogEntry := [LogEntry.mk "root" []]

def c3Matrix : List StatusEntry := [StatusEntry.mk "notes/a" 1 2 3]

def c5Notes : List Note := [Note.mk "n1" "---\ntitle: \n---\n\n"]

def c1Env : PullEnv :=
  { fetchThrows := false
    mergeResult := MergeResult.conflict
    hasUnsavedChanges := true
    matrix := [StatusEntry.mk "notes/a" 1 2 3]
    markersWorkdir := fun _ => some "<<<<<<< marker content"
    markerLocalOid := some "l1"
    markerRemoteOid := some "r1"
    markerCommitThrows := false
    resetThrows := false }

def c2Env : PushEnv :=
  { hasUnsavedChanges := false
    currentIdPresent := true
    isViewingHistorySnapshot := false
    saveAndCommitThrows := false
    remoteBefore := some "bbb"
    fetchThrows := false
    fetchedRemoteOid := some "bbb"
    mergeResult := MergeResult.ok
    matrix := []
    markersWorkdir := fun _ => none
    markerLocalOid := none
    markerRemoteOid := none
    markerCommitThrows := false
    pushResult := PushPrimResult.rejected
    postLocalOid := some "ccc"
    writeRefThrows := false
    refetchThrows := false
    refetchLocalOid := some "ccc"
    refetchRemoteOid := some "ccc" }

def c9Env : PushEnv :=
  { hasUnsavedChanges := false
    currentIdPresent := true
    isViewingHistorySnapshot := false
    saveAndCommitThrows := false
    remoteBefore := some "bbb"
    fetchThrows := false
    fetchedRemoteOid := some "bbb"
    mergeResult := MergeResult.ok
    matrix := []
    markersWorkdir := fun _ => none
    markerLocalOid := none
    markerRemoteOid := none
    markerCommitThrows := false
    pushResult := PushPrimResult.ok
    postLocalOid := some "aaa"
    writeRefThrows := false
    refetchThrows := false
    refetchLocalOid := none
    refetchRemoteOid := none }

def c9WitnessEnv : PushEnv :=
  { c9Env with
    postLocalOid := some "ddd"
    fetchedRemoteOid := some "eee"
    remoteBefore := some "eee" }

def c7Notes : List Note := [Note.mk "a" "x", Note.mk "c" "y"]

def c7TreeOf : String → TreeTable := fun o =>
  if o = "l" then [("notes/a", TreeEntry.mk EType.blob "1")] else []


/-! ### Infrastructure lemmas on line splitting and joining -/

theorem consLine_ne_nil (c : Char) (ls : List (List Char)) : consLine c ls ≠ [] := by
  cases ls <;> simp [consLine]

theorem splitLF_ne_nil (s : List Char) : splitLF s ≠ [] := by
  induction s with
  | nil => simp [splitLF]
  | cons c rest ih =>
    by_cases h : c = '\n'
    · subst h; simp [splitLF]
    · rw [splitLF]
      · exact consLine_ne_nil c _
      · exact fun hc => absurd hc h

theorem joinLF_cons_cons (l m : List Char) (ls : List (List Char)) :
    joinLF (l :: m :: ls) = l ++ '\n' :: joinLF (m :: ls) := rfl

theorem joinLF_consLine (c : Char) (ls : List (List Char)) (h : ls ≠ []) :
    joinLF (consLine c ls) = c :: joinLF ls := by
  match ls with
  | [] => exact absurd rfl h
  | [l] => rfl
  | l :: m :: ls => rfl

theorem joinLF_splitLF (s : List Char) : joinLF (splitLF s) = s := by
  induction s with
  | nil => rfl
  | cons c rest ih =>
    by_cases h : c = '\n'
    · subst h
      rw [splitLF]
      obtain ⟨l, ls, he⟩ := List.exists_cons_of_ne_nil (splitLF_ne_nil rest)
      rw [he, joinLF_cons_cons, List.nil_append, ← he, ih]
    · rw [splitLF]
      · rw [joinLF_consLine c _ (splitLF_ne_nil rest), ih]
      · exact fun hc => absurd hc h

theorem splitLines_eq_splitLF (s : List Char) (h : '\r' ∉ s) :
    splitLines s = splitLF s := by
  induction s with
  | nil => rfl
  | cons c rest ih =>
    have hc : c ≠ '\r' := fun e => h (e ▸ List.mem_cons_self c rest)
    have hr : '\r' ∉ rest := fun m => h (List.mem_cons_of_mem c m)
    by_cases hn : c = '\n'
    · subst hn
      rw [splitLines, splitLF, ih hr]
    · rw [splitLines, splitLF, ih hr]
      · exact fun hcn => absurd hcn hn
      · exact fun _ hcr _ => hc hcr
      · exact fun hcn => absurd hcn hn

theorem joinLF_append (a b : List (List Char)) (ha : a ≠ []) (hb : b ≠ []) :
    joinLF (a ++ b) = joinLF a ++ '\n' :: joinLF b := by
  induction a with
  | nil => exact absurd rfl ha
  | cons x a ih =>
    match a with
    | [] =>
      obtain ⟨y, b2, hb2⟩ := List.exists_cons_of_ne_nil hb
      subst hb2
      rw [List.singleton_append, joinLF_cons_cons]
      rfl
    | y :: a2 =>
      have h1 := ih (List.cons_ne_nil y a2)
      simp only [List.cons_append] at h1 ⊢
      rw [joinLF_cons_cons, h1, joinLF_cons_cons, List.append_assoc, List.cons_append]

theorem find?_eq_head?_filter (p : List Char → Bool) (l : List (List Char)) :
    l.find? p = (l.filter p).head? := by
  induction l with
  | nil => rfl
  | cons x xs ih =>
    by_cases h : p x
    · simp [List.find?, List.filter, h]
    · simp only [List.find?, List.filter, h]
      exact ih

/-! ### Claim theorems -/

/-- Claim C10: for every parsed note body, the title resolves in this order:
a non-blank explicit title field (either case variant accepted) first; else
the first non-blank line of the content (trimmed); else the constant
"Untitled". Stated as equality between the code model getNoteTitle and the
spec-side resolution titleOfSpec, for every parsed note. -/
theorem c10_title_resolution_order (p : ParsedNote) : getNoteTitle p = titleOfSpec p := by
  unfold getNoteTitle getNoteTitleUpper titleOfSpec explicitNonBlankTitle
  rw [← find?_eq_head?_filter]
  cases h1 : p.frontMatter.lookup titleKey with
  | none =>
    simp only [h1, List.filterMap_cons]
    cases h2 : p.frontMatter.lookup titleKeyU with
    | none => simp
    | some v =>
      cases v with
      | scalar s => by_cases hb : trimChars s = [] <;> simp [isBlank, hb]
      | list es => simp
  | some v =>
    cases v with
    | scalar s =>
      simp only [h1, List.filterMap_cons]
      by_cases hb : trimChars s = []
      · simp only [isBlank, hb, ne_eq, not_true_eq_false, if_false, reduceIte]
        cases h2 : p.frontMatter.lookup titleKeyU with
        | none => simp
        | some v2 =>
          cases v2 with
          | scalar s2 => by_cases hb2 : trimChars s2 = [] <;> simp [isBlank, hb2]
          | list es2 => simp
      · simp [isBlank, hb]
    | list es =>
      simp only [h1, List.filterMap_cons]
      cases h2 : p.frontMatter.lookup titleKeyU with
      | none => simp
      | some v2 =>
        cases v2 with
        | scalar s2 => by_cases hb2 : trimChars s2 = [] <;> simp [isBlank, hb2]
        | list es2 => simp

/-- Claim C4, as stated, is false: the body "---\n---" has a well-formed
metadata block (first line is the marker, a terminating marker line exists),
but re-serializing appends a line break that the original did not contain,
so the round trip is not byte-for-byte. -/
theorem c4_counterexample :
    hasWellFormedFM c4Body = true ∧
    composeBody ((parseNoteBody c4Body).frontMatterRaw.getD [])
      (parseNoteBody c4Body).content ≠ c4Body := by decide

/-- Claim C4 (amended): for every body whose line separators are LF only (no
carriage returns) and whose well-formed metadata block's terminating marker
line is followed by a line break (it is not the last line), re-serializing
the raw metadata block, a line break and the parsed content reproduces the
body byte-for-byte. -/
theorem c4_roundTrip (body : List Char) (hcr : '\r' ∉ body)
    (hfm : hasWellFormedFM body = true)
    (hft : fmTerminatorFollowed body = true) :
    composeBody ((parseNoteBody body).frontMatterRaw.getD [])
      (parseNoteBody body).content = body := by
  obtain ⟨l0, rest, he⟩ := List.exists_cons_of_ne_nil (splitLF_ne_nil body)
  have hsl : splitLines body = l0 :: rest := (splitLines_eq_splitLF body hcr).trans he
  rw [hasWellFormedFM, hsl] at hfm
  simp only [Bool.and_eq_true, beq_iff_eq, Option.isSome_iff_exists] at hfm
  obtain ⟨hl0, j, hj⟩ := hfm
  subst hl0
  rw [fmTerminatorFollowed, hsl] at hft
  simp only [hj, decide_eq_true_eq] at hft
  have hdrop : rest.drop (j + 1) ≠ [] := by
    intro h0
    have hle := List.drop_eq_nil_iff.mp h0
    omega
  simp only [parseNoteBody, hsl, hj, if_pos rfl, if_true, Option.getD_some, composeBody]
  rw [← joinLF_append (fmMarker :: rest.take (j + 1)) (rest.drop (j + 1))
      (List.cons_ne_nil _ _) hdrop]
  rw [List.cons_append, List.take_append_drop]
  rw [← he, joinLF_splitLF]

/-- Witness for c4_roundTrip at the concrete body
"---\ntitle: x\n---\nhello". -/
theorem c4_roundTrip_witness :
    composeBody ((parseNoteBody c4WitnessBody).frontMatterRaw.getD [])
      (parseNoteBody c4WitnessBody).content = c4WitnessBody :=
  c4_roundTrip c4WitnessBody (by decide) (by decide) (by decide)


/-- Claim C8, as stated, is false: ensureConfig accepts any non-empty author
name and email, not only the expected default values. With the URL and
refspec at their defaults but user.name "Alice" and user.email
"alice@example.net" — both different from the defaults — it still returns
true. -/
theorem c8_counterexample :
    ensureConfig c8Url (some c8Url) (some FETCH_REFSPEC)
      (some "Alice") (some "alice@example.net") = true ∧
    "Alice" ≠ authorName ∧ "alice@example.net" ≠ authorEmail := by decide

/-- Claim C8 (amended): isConfigured returns true iff the remote URL and the
fetch refspec equal the expected defaults and the author name and email are
each set to some non-empty value; a read failure on any individual key is
treated as that value being unset. -/
theorem c8_amended (url : String) (r f n e : Option String) :
    ensureConfig url r f n e = true ↔
      (r = some url ∧ f = some FETCH_REFSPEC ∧
       (∃ s, n = some s ∧ s ≠ "") ∧ (∃ s, e = some s ∧ s ≠ "")) := by
  cases n with
  | none => simp [ensureConfig, configTruthy]
  | some sn =>
    cases e with
    | none => simp [ensureConfig, configTruthy]
    | some se =>
      simp only [ensureConfig, configTruthy, Bool.and_eq_true, beq_iff_eq,
        Bool.not_eq_eq_eq_not, Bool.not_true, beq_eq_false_iff_ne, ne_eq]
      constructor
      · rintro ⟨⟨⟨hr, hf⟩, hn⟩, he⟩
        exact ⟨hr, hf, ⟨sn, rfl, hn⟩, ⟨se, rfl, he⟩⟩
      · rintro ⟨hr, hf, ⟨s1, hs1, hn⟩, ⟨s2, hs2, he⟩⟩
        cases hs1
        cases hs2
        exact ⟨⟨⟨hr, hf⟩, hn⟩, he⟩

/-- Witness for c8_amended: at the concrete configuration that reads back
exactly the defaults, both directions are realized. -/
theorem c8_amended_witness :
    ensureConfig c8Url (some c8Url) (some FETCH_REFSPEC)
      (some authorName) (some authorEmail) = true :=
  (c8_amended c8Url (some c8Url) (some FETCH_REFSPEC)
      (some authorName) (some authorEmail)).mpr
    ⟨rfl, rfl, ⟨authorName, rfl, by decide⟩, ⟨authorEmail, rfl, by decide⟩⟩

/-- Claim C3: with zero conflicted (stage-3) paths the conflict-marker
commit step creates no commit and returns false; otherwise it stages every
conflicted path with its on-disk content and commits with both tips as
parents when both resolve and differ, the local tip alone when only it
resolves, and no explicit parent when neither resolves. -/
theorem c3_conflict_marker_commit (matrix : List StatusEntry)
    (workdir : String → Option String) (localOid remoteOid : Option String) :
    (conflictedOf matrix = [] →
      commitMergeConflictMarkers matrix workdir localOid remoteOid =
        ⟨false, [], none⟩) ∧
    (conflictedOf matrix ≠ [] →
      (commitMergeConflictMarkers matrix workdir localOid remoteOid).committed = true ∧
      (commitMergeConflictMarkers matrix workdir localOid remoteOid).staged =
        (conflictedOf matrix).map (fun p => (p, workdir p)) ∧
      (∀ l r, localOid = some l → remoteOid = some r → l ≠ r →
        (commitMergeConflictMarkers matrix workdir localOid remoteOid).commit =
          some ⟨"merge conflict", ParentSpec.explicitPar [l, r]⟩) ∧
      (∀ l, localOid = some l → remoteOid = none →
        (commitMergeConflictMarkers matrix workdir localOid remoteOid).commit =
          some ⟨"merge conflict", ParentSpec.explicitPar [l]⟩) ∧
      (localOid = none → remoteOid = none →
        (commitMergeConflictMarkers matrix workdir localOid remoteOid).commit =
          some ⟨"merge conflict", ParentSpec.headDefault⟩)) := by
  constructor
  · intro hc
    simp [commitMergeConflictMarkers, hc]
  · intro hc
    refine ⟨?_, ?_, ?_, ?_, ?_⟩
    · simp [commitMergeConflictMarkers, hc]
    · simp [commitMergeConflictMarkers, hc]
    · intro l r hl hr hne
      subst hl; subst hr
      simp [commitMergeConflictMarkers, hc, hne]
    · intro l hl hr
      subst hl; subst hr
      simp [commitMergeConflictMarkers, hc]
    · intro hl hr
      subst hl; subst hr
      simp [commitMergeConflictMarkers, hc]

/-- Witness for c3_conflict_marker_commit at a one-conflict matrix with both
tips resolvable and distinct. -/
theorem c3_witness :
    (commitMergeConflictMarkers c3Matrix (fun _ => some "<<< x") (some "l1")
      (some "r1")).committed = true ∧
    (commitMergeConflictMarkers c3Matrix (fun _ => some "<<< x") (some "l1")
      (some "r1")).staged = [("notes/a", some "<<< x")] ∧
    (commitMergeConflictMarkers c3Matrix (fun _ => some "<<< x") (some "l1")
      (some "r1")).commit =
      some ⟨"merge conflict", ParentSpec.explicitPar ["l1", "r1"]⟩ :=
  have h := c3_conflict_marker_commit c3Matrix (fun _ => some "<<< x")
    (some "l1") (some "r1")
  ⟨(h.2 (by decide)).1,
   ((h.2 (by decide)).2.1).trans (by decide),
   (h.2 (by decide)).2.2.1 "l1" "r1" rfl rfl (by decide)⟩

/-- Claim C6, as stated, is false on its always-changed clause: a root
commit at which the path has no blob compares null against null and is
filtered out, whereas the claim says root commits are always retained. -/
theorem c6_counterexample :
    logFileChanges c6RootLog (fun _ _ => none) "notes/a" = [] ∧
    c6RootLog = [LogEntry.mk "root" []] := by decide

/-- Claim C6 (amended): the change-history filter retains exactly the
commits whose content-hash for the path differs from the content-hash at
the first parent, a missing blob (or absent parent) counting as the null
hash; consequently a root commit is retained exactly when the path's blob
exists at it. -/
theorem c6_history_filter (commits : List LogEntry)
    (blobAt : String → String → Option String) (filepath : String) (e : LogEntry) :
    (e ∈ logFileChanges commits blobAt filepath ↔
      e ∈ commits ∧
        blobAt e.oid filepath ≠ contentHashAt blobAt e.parents.head? filepath) ∧
    (e.parents = [] →
      (e ∈ logFileChanges commits blobAt filepath ↔
        e ∈ commits ∧ (blobAt e.oid filepath).isSome = true)) := by
  constructor
  · simp [logFileChanges, List.mem_filter]
  · intro hp
    simp only [logFileChanges, List.mem_filter, hp, List.head?_nil,
      contentHashAt, decide_eq_true_eq]
    cases hb : blobAt e.oid filepath <;> simp

/-- Witness for c6_history_filter: a two-commit history where the child did
not change the path is filtered down to the root that introduced it. -/
theorem c6_witness :
    LogEntry.mk "c1" ["c0"] ∈
      logFileChanges [LogEntry.mk "c1" ["c0"], LogEntry.mk "c0" []]
        (fun o _ => if o = "c0" then some "b0" else some "b0") "notes/a" ↔
      False :=
  have h := (c6_history_filter [LogEntry.mk "c1" ["c0"], LogEntry.mk "c0" []]
    (fun o _ => if o = "c0" then some "b0" else some "b0") "notes/a"
    (LogEntry.mk "c1" ["c0"])).1
  by
    rw [h]
    simp [contentHashAt]

/-- Claim C5 is contradicted by the code: for a newly created,
never-committed note the pre-delete status isomorphic-git reports is
"*added" (see untrackedStatus), which the wasTracked test — it compares
against "untracked", a value the library never produces — classifies as
tracked, so deleteCurrentNote creates a deletion commit and reports
"deleted" instead of "removed locally" with no commit. -/
theorem c5_untracked_delete_commits :
    wasTracked untrackedStatus = true ∧
    (deleteCurrentNote untrackedStatus true c5Notes "n1").commitCreated = true ∧
    (deleteCurrentNote untrackedStatus true c5Notes "n1").statusMsg = "deleted" ∧
    (deleteCurrentNote untrackedStatus true c5Notes "n1").statusMsg ≠ "removed locally" ∧
    (deleteCurrentNote untrackedStatus true c5Notes "n1").fileRemoved = true ∧
    (deleteCurrentNote untrackedStatus true c5Notes "n1").notesAfter = [] := by decide


/-- Claim C1: whenever pull() runs with unsaved local edits (the dirty flag
tracks editor content differing from the last saved content), no forced
checkout and no reset materializes the working tree over them, and if the
merge raised a conflict the operation ends with the conflict markers
committed or still present in the working tree — never a silent
overwrite. -/
theorem c1_pull_preserves_unsaved_edits (env : PullEnv)
    (h : env.hasUnsavedChanges = true) :
    (pullChanges env).forcedCheckout = false ∧
    (pullChanges env).resetRun = false ∧
    (env.fetchThrows = false → env.mergeResult = MergeResult.conflict →
      (pullChanges env).markersCommitted = true ∨
      (pullChanges env).conflictMarkersInWorkdir = true) := by
  unfold pullChanges pullConflictMarkerPath
  cases hf : env.fetchThrows with
  | true => simp
  | false =>
    cases hm : env.mergeResult with
    | ok =>
      by_cases hmc : env.markerCommitThrows
      · simp [h, hmc]
      · by_cases hcm : (commitMergeConflictMarkers env.matrix env.markersWorkdir
          env.markerLocalOid env.markerRemoteOid).committed
        · simp [h, hmc, hcm]
        · simp [h, hmc, hcm]
    | conflict =>
      by_cases hmc : env.markerCommitThrows
      · simp [h, hmc]
      · by_cases hcm : (commitMergeConflictMarkers env.matrix env.markersWorkdir
          env.markerLocalOid env.markerRemoteOid).committed
        · simp [h, hmc, hcm]
        · simp [h, hmc, hcm]
    | unmergedPaths => simp
    | otherError => simp

/-- Witness for c1_pull_preserves_unsaved_edits: a conflicting pull with
unsaved edits and one conflicted path ends conflict-marker-committed with
no forced checkout. -/
theorem c1_witness :
    (pullChanges c1Env).forcedCheckout = false ∧
    (pullChanges c1Env).resetRun = false ∧
    ((pullChanges c1Env).markersCommitted = true ∨
      (pullChanges c1Env).conflictMarkersInWorkdir = true) :=
  have h := c1_pull_preserves_unsaved_edits c1Env rfl
  ⟨h.1, h.2.1, h.2.2 rfl rfl⟩

/-- Claim C2: when the push primitive fails with a push rejection and the
re-fetch succeeds and shows equal resolvable local and remote-tracking
tips, pushChanges reports a pushed status, not "push failed". -/
theorem c2_rejected_push_tip_equality (env : PushEnv) (o : String)
    (hreach : reachesPushPhase env)
    (hrej : env.pushResult = PushPrimResult.rejected)
    (hfetch : env.refetchThrows = false)
    (hl : env.refetchLocalOid = some o) (hr : env.refetchRemoteOid = some o) :
    ((pushChanges env).statusMsg = "pushed" ∨
     (pushChanges env).statusMsg = "pushed (conflict committed)") ∧
    (pushChanges env).statusMsg ≠ "push failed" := by
  obtain ⟨h1, h2, h3⟩ := hreach
  have hup : isUpToDateWithRemote env.refetchThrows env.refetchLocalOid
      env.refetchRemoteOid = true := by
    simp [isUpToDateWithRemote, hfetch, hl, hr]
  unfold pushChanges pushPhase
  rcases h3 with hok | ⟨hcf, hmc, hcm⟩
  · simp [h1, h2, hok, hrej, hup]
  · rcases hcf with hc | hc <;> simp [h1, h2, hc, hmc, hcm, hrej, hup]

/-- Witness for c2_rejected_push_tip_equality: a clean merge followed by a
rejected push whose re-fetch shows both tips at the same oid reports
"pushed". -/
theorem c2_witness :
    ((pushChanges c2Env).statusMsg = "pushed" ∨
     (pushChanges c2Env).statusMsg = "pushed (conflict committed)") ∧
    (pushChanges c2Env).statusMsg ≠ "push failed" :=
  c2_rejected_push_tip_equality c2Env "ccc"
    ⟨rfl, rfl, Or.inl rfl⟩ rfl rfl rfl rfl

/-- Claim C9, as stated, is false: pushChanges itself force-writes the
remote-tracking ref after a successful push. Here the fetch leaves the
tracking ref at its prior value (some "bbb"), the push succeeds with local
tip "aaa", and the operation ends with the tracking ref moved to
some "aaa" ≠ some "bbb". -/
theorem c9_counterexample :
    c9Env.remoteBefore = some "bbb" ∧
    c9Env.fetchedRemoteOid = c9Env.remoteBefore ∧
    (pushChanges c9Env).statusMsg = "pushed" ∧
    (pushChanges c9Env).remoteRefAfter = some "aaa" ∧
    (pushChanges c9Env).remoteRefAfter ≠ c9Env.remoteBefore := by decide

/-- Claim C9 (amended): the remote-tracking ref is updated only by fetch and
by a successful push — pushChanges force-writes it to the post-push local
tip — while merge, commit, delete and reset leave it unchanged. -/
theorem c9_remote_ref_updates :
    (∀ st oid, (mergeRefEffect st oid).remoteRef = st.remoteRef) ∧
    (∀ st oid, (commitRefEffect st oid).remoteRef = st.remoteRef) ∧
    (∀ st s oid, (deleteRefEffect st s oid).remoteRef = st.remoteRef) ∧
    (∀ st st2, resetToRemoteRefEffect st = Except.ok st2 →
      st2.remoteRef = st.remoteRef) ∧
    (∀ env : PushEnv, reachesPushPhase env →
      env.pushResult = PushPrimResult.ok → env.writeRefThrows = false →
      ∀ v, env.postLocalOid = some v →
      (pushChanges env).remoteRefAfter = some v) := by
  refine ⟨fun st oid => rfl, fun st oid => rfl, ?_, ?_, ?_⟩
  · intro st s oid
    unfold deleteRefEffect commitRefEffect
    by_cases h : wasTracked s <;> simp [h]
  · intro st st2 hok
    unfold resetToRemoteRefEffect at hok
    cases hr : st.remoteRef with
    | none => rw [hr] at hok; exact absurd hok (by simp)
    | some r =>
      rw [hr] at hok
      simp only [Except.ok.injEq] at hok
      rw [← hok]
  · intro env hreach hpush hwrite v hpost
    obtain ⟨h1, h2, h3⟩ := hreach
    unfold pushChanges pushPhase
    rcases h3 with hok | ⟨hcf, hmc, hcm⟩
    · simp [h1, h2, hok, hpush, hwrite, hpost]
    · rcases hcf with hc | hc <;> simp [h1, h2, hc, hmc, hcm, hpush, hwrite, hpost]

/-- Witness for c9_remote_ref_updates: concrete instances of the delete,
reset and successful-push conjuncts. -/
theorem c9_witness :
    (deleteRefEffect ⟨some "x", some "y"⟩ untrackedStatus "z").remoteRef = some "y" ∧
    (pushChanges c9WitnessEnv).remoteRefAfter = some "ddd" :=
  have h := c9_remote_ref_updates
  ⟨h.2.2.1 ⟨some "x", some "y"⟩ untrackedStatus "z",
   h.2.2.2.2 c9WitnessEnv ⟨rfl, rfl, Or.inl rfl⟩ rfl rfl "ddd" rfl⟩


theorem lookup_mem_keys (t : TreeTable) (p : String) (e : TreeEntry)
    (h : t.lookup p = some e) : p ∈ t.map Prod.fst := by
  induction t with
  | nil => simp [List.lookup] at h
  | cons x xs ih =>
    match x with
    | (k, v) =>
      rw [List.lookup] at h
      by_cases hk : p == k
      · have hk2 : p = k := by simpa using hk
        simp [hk2]
      · rw [Bool.not_eq_true] at hk
        rw [hk] at h
        exact List.mem_cons_of_mem _ (ih h)

theorem walkEntryChanged_iff (le re : Option TreeEntry) :
    walkEntryChanged le re = true ↔
      ((∃ el er, le = some el ∧ re = some er ∧ el.etype = EType.blob ∧
          er.etype = EType.blob ∧ el.oid ≠ er.oid) ∨
       (∃ el, le = some el ∧ re = none ∧ el.etype = EType.blob) ∨
       (∃ er, le = none ∧ re = some er ∧ er.etype = EType.blob)) := by
  cases le with
  | none =>
    cases re with
    | none => simp [walkEntryChanged]
    | some r =>
      match r with
      | ⟨rt, ro⟩ => cases rt <;> simp [walkEntryChanged]
  | some l =>
    match l with
    | ⟨lt, lo⟩ =>
      cases re with
      | none => cases lt <;> simp [walkEntryChanged]
      | some r =>
        match r with
        | ⟨rt, ro⟩ => cases lt <;> cases rt <;> simp [walkEntryChanged]

theorem getChangedNotePaths_nil (localOid remoteOid : Option String)
    (treeOf : String → TreeTable)
    (h : localOid = none ∨ remoteOid = none ∨ localOid = remoteOid) :
    getChangedNotePaths localOid remoteOid treeOf = [] := by
  rcases h with h | h | h
  · subst h; cases remoteOid <;> rfl
  · subst h; cases localOid <;> rfl
  · cases localOid with
    | none => rfl
    | some l =>
      cases remoteOid with
      | none => rfl
      | some r =>
        have : l = r := by simpa using h
        simp [getChangedNotePaths, this]

theorem mem_getChangedNotePaths (localOid remoteOid : Option String)
    (treeOf : String → TreeTable) (p : String) :
    p ∈ getChangedNotePaths localOid remoteOid treeOf ↔
      ∃ l r, localOid = some l ∧ remoteOid = some r ∧ l ≠ r ∧
        changedLeafSpec treeOf l r p := by
  cases localOid with
  | none => simp [getChangedNotePaths]
  | some l =>
    cases remoteOid with
    | none => simp [getChangedNotePaths]
    | some r =>
      by_cases hlr : l = r
      · subst hlr
        simp [getChangedNotePaths]
      · rw [getChangedNotePaths]
        rw [if_neg hlr, List.mem_filter]
        constructor
        · rintro ⟨hmem, hpred⟩
          simp only [Bool.and_eq_true, Bool.not_eq_true', beq_eq_false_iff_ne] at hpred
          obtain ⟨⟨hdot, hpre⟩, hchanged⟩ := hpred
          exact ⟨l, r, rfl, rfl, hlr,
            hpre, hdot, (walkEntryChanged_iff _ _).mp hchanged⟩
        · rintro ⟨l2, r2, hl2, hr2, hlr2, hpre, hdot, hch⟩
          rw [Option.some.injEq] at hl2 hr2
          subst hl2; subst hr2
          refine ⟨?_, ?_⟩
          · rw [walkPaths, List.mem_dedup, List.mem_append]
            rcases hch with ⟨el, er, hle, hre, hrest⟩ | ⟨el, hle, hre, hrest⟩ |
                ⟨er, hle, hre, hrest⟩
            · exact Or.inl (lookup_mem_keys _ _ _ hle)
            · exact Or.inl (lookup_mem_keys _ _ _ hle)
            · exact Or.inr (lookup_mem_keys _ _ _ hre)
          · simp only [Bool.and_eq_true, Bool.not_eq_true', beq_eq_false_iff_ne]
            exact ⟨⟨hdot, hpre⟩, (walkEntryChanged_iff _ _).mpr hch⟩

/-- Claim C7: if either tip is unresolvable or the two tips are equal the
marker map is empty; otherwise a note gets both diffFromOrigin and
locallyCommitted set true exactly when its notes-prefixed path is a leaf
entry whose content-hash differs between the two tips or which is present
on only one side; and the computation is a pure function of the refs and
trees, so repeated calls with no intervening ref change agree. -/
theorem c7_note_markers (notes : List Note) (localOid remoteOid : Option String)
    (treeOf : String → TreeTable) :
    ((localOid = none ∨ remoteOid = none ∨ localOid = remoteOid) →
      buildNoteMarkers notes localOid remoteOid treeOf = []) ∧
    (∀ id m, (id, m) ∈ buildNoteMarkers notes localOid remoteOid treeOf ↔
      ((∃ n, n ∈ notes ∧ n.id = id) ∧ m = NoteMarker.mk true true ∧
        ∃ l r, localOid = some l ∧ remoteOid = some r ∧ l ≠ r ∧
          changedLeafSpec treeOf l r (getNoteFilePath id))) ∧
    buildNoteMarkers notes localOid remoteOid treeOf =
      buildNoteMarkers notes localOid remoteOid treeOf := by
  refine ⟨?_, ?_, rfl⟩
  · intro h
    have hnil := getChangedNotePaths_nil localOid remoteOid treeOf h
    rw [buildNoteMarkers, hnil]
    simp
  · intro id m
    rw [buildNoteMarkers, List.mem_filterMap]
    constructor
    · rintro ⟨note, hnote, hf⟩
      by_cases hc : (getChangedNotePaths localOid remoteOid treeOf).contains
          (getNoteFilePath note.id)
      · simp only [hc, Bool.or_self, if_true, Option.some.injEq, Prod.mk.injEq] at hf
        obtain ⟨hid, hm⟩ := hf
        subst hid
        have hmem : getNoteFilePath note.id ∈
            getChangedNotePaths localOid remoteOid treeOf := by
          simpa using hc
        exact ⟨⟨note, hnote, rfl⟩, hm.symm,
          (mem_getChangedNotePaths localOid remoteOid treeOf _).mp hmem⟩
      · simp at hf
        exact absurd hf.1 (by simpa using hc)
    · rintro ⟨⟨n, hn, hnid⟩, hm, hex⟩
      subst hnid
      have hmem : getNoteFilePath n.id ∈
          getChangedNotePaths localOid remoteOid treeOf :=
        (mem_getChangedNotePaths localOid remoteOid treeOf _).mpr hex
      have hc : (getChangedNotePaths localOid remoteOid treeOf).contains
          (getNoteFilePath n.id) = true := by simpa using hmem
      exact ⟨n, hn, by simp [hm, hmem]⟩

/-- Witness for c7_note_markers: two notes, one changed path between
distinct tips, yields exactly the changed note's double-true marker. -/
theorem c7_witness :
    buildNoteMarkers c7Notes (some "l") (some "r") c7TreeOf =
      [("a", NoteMarker.mk true true)] ∧
    ("a", NoteMarker.mk true true) ∈ buildNoteMarkers c7Notes (some "l") (some "r") c7TreeOf :=
  have h := c7_note_markers c7Notes (some "l") (some "r") c7TreeOf
  ⟨by decide,
   (h.2.1 "a" (NoteMarker.mk true true)).mpr
     ⟨⟨Note.mk "a" "x", by decide, rfl⟩, rfl,
      "l", "r", rfl, rfl, by decide, by decide, by decide,
      Or.inr (Or.inl ⟨TreeEntry.mk EType.blob "1", by decide, by decide, rfl⟩)⟩⟩

end Notig
